import Mathlib

/-!
Verification of xlsxwriter-rs against its specification.

The repository's `src/` holds the Rust binding surface
(`src/libxlsxwriter/src/lib.rs`): `CStringHelper`, `try_to_vec` and
`StringOrFloat` are embedded from that source directly.  The engine the
specification describes (format registry, shared string table, worksheet
and workbook models, part generation and archive packaging) lives in the
vendored C library, which is not part of `src/`; those components are
modelled from the specification text, as marked on each definition.
-/

namespace XlsxSpec

/-- Error taxonomy.  Modelled from the spec: §7 lists
`InvalidCoordinate`, `InvalidSheetName`, `DuplicateSheetName`,
`EmptyWorkbook`, `MergedCellConflict`, `OverlappingMerge`,
`InvalidNumericValue`, `TooManyFormats`, `WorkbookClosed`, `IoFailure`.
`NulError` is the interior-NUL failure of `CString::new` used by
`CStringHelper::add` in `src/libxlsxwriter/src/lib.rs`. -/
inductive XlsxErr where
  | InvalidCoordinate
  | InvalidSheetName
  | DuplicateSheetName
  | EmptyWorkbook
  | MergedCellConflict
  | OverlappingMerge
  | InvalidNumericValue
  | TooManyFormats
  | WorkbookClosed
  | IoFailure
  | NulError
deriving DecidableEq, Repr

/-- Index of the first occurrence of `x` in `l`, or `none` when `x` is
absent.  Shared lookup core of the format registry (§4.1) and the shared
string table (§4.2), both of which map content to its first-assigned
index. -/
def firstIdx {α : Type} [DecidableEq α] : List α → α → Option Nat
  | [], _ => none
  | y :: ys, x => if y = x then some 0 else (firstIdx ys x).map (· + 1)

theorem firstIdx_getElem? {α : Type} [DecidableEq α] (l : List α) (x : α) (i : Nat)
    (h : firstIdx l x = some i) : l[i]? = some x := by
  induction l generalizing i with
  | nil => simp [firstIdx] at h
  | cons y ys ih =>
    by_cases hy : y = x
    · simp [firstIdx, hy] at h
      subst h
      simp [hy]
    · simp [firstIdx, hy] at h
      obtain ⟨j, hj, rfl⟩ := h
      simpa using ih j hj

theorem firstIdx_lt_length {α : Type} [DecidableEq α] (l : List α) (x : α) (i : Nat)
    (h : firstIdx l x = some i) : i < l.length := by
  have := firstIdx_getElem? l x i h
  exact (List.getElem?_eq_some.mp this).1

theorem firstIdx_append_self {α : Type} [DecidableEq α] (l : List α) (x : α)
    (h : firstIdx l x = none) : firstIdx (l ++ [x]) x = some l.length := by
  induction l with
  | nil => simp [firstIdx]
  | cons y ys ih =>
    by_cases hy : y = x
    · simp [firstIdx, hy] at h
    · simp [firstIdx, hy] at h ⊢
      simp [ih h]

/-- Modelled from the spec: a `Format` is "a value object describing font,
fill, border, number format, alignment, protection attributes" (§3); the
concrete attributes are opaque small integers and flags, only structural
equality of the whole snapshot matters to the registry. -/
structure Format where
  font : Nat
  fontColor : Nat
  bold : Bool
  italic : Bool
  underline : Nat
  fill : Nat
  border : Nat
  numFmt : Nat
  align : Nat
  verticalAlign : Nat
  protection : Bool
deriving DecidableEq, Repr

/-- Modelled from the spec: the format registry caps the number of
distinct formats at the target format's practical ceiling, "typically a
few thousand" (§4.1). -/
def maxFormats : Nat := 4096

/-- Modelled from the spec: `register(format_descriptor) -> FormatId`
(§4.1).  Keeps an ordered list of unique descriptors; a structurally
equal descriptor gets the existing index, a new one is appended and never
renumbered; exceeding the cap fails with `TooManyFormats`. -/
def register (t : List Format) (f : Format) : Except XlsxErr (List Format × Nat) :=
  match firstIdx t f with
  | some i => .ok (t, i)
  | none =>
    if t.length < maxFormats then .ok (t ++ [f], t.length) else .error .TooManyFormats

theorem register_firstIdx (t : List Format) (f : Format) (t' : List Format) (i : Nat)
    (h : register t f = .ok (t', i)) : firstIdx t' f = some i := by
  unfold register at h
  cases hf : firstIdx t f with
  | some j =>
    rw [hf] at h
    simp at h
    obtain ⟨rfl, rfl⟩ := h
    exact hf
  | none =>
    rw [hf] at h
    by_cases hlen : t.length < maxFormats
    · simp [hlen] at h
      obtain ⟨rfl, rfl⟩ := h
      exact firstIdx_append_self t f hf
    · simp [hlen] at h

theorem register_getElem? (t : List Format) (f : Format) (t' : List Format) (i : Nat)
    (h : register t f = .ok (t', i)) : t'[i]? = some f :=
  firstIdx_getElem? t' f i (register_firstIdx t f t' i h)

theorem register_of_mem (t : List Format) (f : Format) (i : Nat)
    (h : firstIdx t f = some i) : register t f = .ok (t, i) := by
  unfold register
  rw [h]

/-- Claim C1: for all format descriptors `a`, `b`, registering `a` and
then `b` (into the registry state that the first call produced) returns
the same `FormatId` if and only if `a` and `b` are structurally equal; in
particular structurally equal snapshots always get the same index. -/
theorem register_eq_iff (t t' t'' : List Format) (a b : Format) (i j : Nat)
    (ha : register t a = .ok (t', i)) (hb : register t' b = .ok (t'', j)) :
    a = b ↔ i = j := by
  constructor
  · rintro rfl
    have h1 : firstIdx t' a = some i := register_firstIdx t a t' i ha
    have h2 : register t' a = .ok (t', i) := register_of_mem t' a i h1
    rw [h2] at hb
    simp at hb
    exact hb.2
  · intro hij
    have h1 : firstIdx t' a = some i := register_firstIdx t a t' i ha
    have ha' : t'[i]? = some a := firstIdx_getElem? t' a i h1
    -- `t''` is `t'` unchanged or `t'` with `b` appended; index `i` is
    -- within `t'` either way, so both lookups read the same slot.
    unfold register at hb
    cases hf : firstIdx t' b with
    | some k =>
      rw [hf] at hb
      simp at hb
      have hbk : t'[i]? = some b := by
        have h := firstIdx_getElem? t' b k hf
        rw [hb.2, ← hij] at h
        exact h
      have := ha'.symm.trans hbk
      exact Option.some.inj this
    | none =>
      rw [hf] at hb
      by_cases hlen : t'.length < maxFormats
      · simp [hlen] at hb
        have hi : i < t'.length := firstIdx_lt_length t' a i h1
        have hj := hb.2
        omega
      · simp [hlen] at hb

/-- Witness for C1 at concrete formats. -/
theorem register_eq_iff_witness :
    register [] ⟨0, 0, false, false, 0, 0, 0, 0, 0, 0, false⟩ =
      .ok ([⟨0, 0, false, false, 0, 0, 0, 0, 0, 0, false⟩], 0) ∧
    register [⟨0, 0, false, false, 0, 0, 0, 0, 0, 0, false⟩]
        ⟨1, 0, true, false, 0, 0, 0, 0, 0, 0, false⟩ =
      .ok ([⟨0, 0, false, false, 0, 0, 0, 0, 0, 0, false⟩,
            ⟨1, 0, true, false, 0, 0, 0, 0, 0, 0, false⟩], 1) ∧
    (⟨0, 0, false, false, 0, 0, 0, 0, 0, 0, false⟩ =
        (⟨1, 0, true, false, 0, 0, 0, 0, 0, 0, false⟩ : Format) ↔ 0 = 1) := by
  refine ⟨by rfl, by rfl, ?_⟩
  exact register_eq_iff [] [⟨0, 0, false, false, 0, 0, 0, 0, 0, 0, false⟩]
    [⟨0, 0, false, false, 0, 0, 0, 0, 0, 0, false⟩,
     ⟨1, 0, true, false, 0, 0, 0, 0, 0, 0, false⟩]
    ⟨0, 0, false, false, 0, 0, 0, 0, 0, 0, false⟩
    ⟨1, 0, true, false, 0, 0, 0, 0, 0, 0, false⟩ 0 1 (by rfl) (by rfl)

/-- Modelled from the spec: `intern(text) -> StringId` on the shared
string table, "idempotent, insertion-order-preserving for first
occurrence" (§4.2); serialization emits entries in index order. -/
def intern (t : List String) (s : String) : List String × Nat :=
  match firstIdx t s with
  | some i => (t, i)
  | none => (t ++ [s], t.length)

theorem intern_firstIdx (t : List String) (s : String) :
    firstIdx (intern t s).1 s = some (intern t s).2 := by
  unfold intern
  cases hf : firstIdx t s with
  | some i => simpa using hf
  | none => simpa using firstIdx_append_self t s hf

/-- Claim C2: interning `s` twice returns the same `StringId`, and that
id is the position of `s` in the serialized table (entries in index
order), which is the rank of its first insertion: the table slot at the
returned index holds `s` and no earlier slot does. -/
theorem intern_idempotent_rank (t : List String) (s : String) (t' : List String) (i : Nat)
    (h : intern t s = (t', i)) :
    intern t' s = (t', i) ∧ t'[i]? = some s ∧ firstIdx t' s = some i := by
  have hfi : firstIdx t' s = some i := by
    have := intern_firstIdx t s
    rw [h] at this
    exact this
  refine ⟨?_, firstIdx_getElem? t' s i hfi, hfi⟩
  unfold intern
  rw [hfi]

/-- Witness for C2 at a concrete table. -/
theorem intern_idempotent_rank_witness :
    intern ["alpha"] "beta" = (["alpha", "beta"], 1) ∧
    intern ["alpha", "beta"] "beta" = (["alpha", "beta"], 1) ∧
    ["alpha", "beta"][1]? = some "beta" ∧
    firstIdx ["alpha", "beta"] "beta" = some 1 := by
  have h : intern ["alpha"] "beta" = (["alpha", "beta"], 1) := by decide
  have := intern_idempotent_rank ["alpha"] "beta" ["alpha", "beta"] 1 h
  exact ⟨h, this.1, this.2.1, this.2.2⟩

/-- Modelled from the spec: a cell-value `f64`, of which the numeric-write
rule (§4.3) only distinguishes finite values from NaN and the two
infinities; a finite value is kept abstractly as a significand/exponent
pair. -/
inductive F64 where
  | finite (significand : Int) (exponent : Int)
  | nan
  | posInf
  | negInf
deriving DecidableEq, Repr

/-- A value is finite when it is neither NaN nor an infinity. -/
def F64.isFinite : F64 → Bool
  | .finite _ _ => true
  | _ => false

/-- Modelled from the spec: `Cell` is a "tagged union over {Number(f64),
String(...), Formula(text, optional cached result), Boolean, Blank,
Error}" (§3). -/
inductive CellValue where
  | number (x : F64)
  | str (s : String)
  | formula (text : String) (cached : Option F64)
  | boolean (b : Bool)
  | blank
  | err
deriving DecidableEq, Repr

/-- Row ceiling of the target format: 1,048,576 rows (§6). -/
def maxRows : Nat := 1048576

/-- Column ceiling of the target format: 16,384 columns (§6). -/
def maxCols : Nat := 16384

/-- Modelled from the spec: a merged rectangular range anchored at its
top-left cell (§3, glossary). -/
structure MergeRange where
  r1 : Nat
  c1 : Nat
  r2 : Nat
  c2 : Nat
deriving DecidableEq, Repr

/-- The range covers cell `(r, c)`. -/
def MergeRange.covers (m : MergeRange) (r c : Nat) : Bool :=
  m.r1 ≤ r && r ≤ m.r2 && m.c1 ≤ c && c ≤ m.c2

/-- `(r, c)` is the range's top-left anchor. -/
def MergeRange.isAnchor (m : MergeRange) (r c : Nat) : Bool :=
  r == m.r1 && c == m.c1

/-- Two ranges overlap when their row spans and column spans both
intersect. -/
def MergeRange.overlaps (m n : MergeRange) : Bool :=
  m.r1 ≤ n.r2 && n.r1 ≤ m.r2 && m.c1 ≤ n.c2 && n.c1 ≤ m.c2

/-- A stored cell: typed value plus optional `FormatId` reference (§3). -/
structure Cell where
  value : CellValue
  fmt : Option Nat
deriving DecidableEq, Repr

/-- Modelled from the spec: a worksheet is a sparse mapping from
`(row, column)` to `Cell` plus a list of merged ranges (§3); the sparse
map is kept as an association list in which the most recent write for a
coordinate shadows older ones (last write wins). -/
structure Worksheet where
  name : String
  cells : List ((Nat × Nat) × Cell)
  merges : List MergeRange
deriving DecidableEq, Repr

/-- Cell `(r, c)` is covered by some merged range without being that
range's top-left anchor. -/
def Worksheet.coveredNonAnchor (ws : Worksheet) (r c : Nat) : Bool :=
  ws.merges.any fun m => m.covers r c && !(m.isAnchor r c)

/-- Numeric writes accept only finite values (§4.3); all other value
kinds pass. -/
def numericOk : CellValue → Bool
  | .number x => x.isFinite
  | _ => true

/-- Modelled from the spec: `write(row, col, cell_value, format_id?)`
(§4.3) — out-of-bounds coordinates fail with `InvalidCoordinate`, a cell
covered by a merge other than its anchor fails with
`MergedCellConflict`, a non-finite numeric value fails with
`InvalidNumericValue`; otherwise the cell is stored. -/
def Worksheet.write (ws : Worksheet) (r c : Nat) (v : CellValue) (fmt : Option Nat) :
    Except XlsxErr Worksheet :=
  if maxRows ≤ r ∨ maxCols ≤ c then .error .InvalidCoordinate
  else if ws.coveredNonAnchor r c then .error .MergedCellConflict
  else if numericOk v then .ok { ws with cells := ((r, c), ⟨v, fmt⟩) :: ws.cells }
  else .error .InvalidNumericValue

/-- Read back the value stored at `(r, c)`, the most recent write
winning. -/
def Worksheet.read (ws : Worksheet) (r c : Nat) : Option CellValue :=
  (ws.cells.find? fun e => e.1 = (r, c)).map fun e => e.2.value

/-- Modelled from the spec: `merge(row1, col1, row2, col2, format_id?)`
(§4.3) — a range overlapping an existing merge fails with
`OverlappingMerge`; merged ranges must stay within the coordinate
bounds (§3). -/
def Worksheet.mergeRange (ws : Worksheet) (r1 c1 r2 c2 : Nat) (_fmt : Option Nat) :
    Except XlsxErr Worksheet :=
  if maxRows ≤ r2 ∨ maxCols ≤ c2 ∨ r2 < r1 ∨ c2 < c1 then .error .InvalidCoordinate
  else if ws.merges.any fun m => m.overlaps ⟨r1, c1, r2, c2⟩ then .error .OverlappingMerge
  else .ok { ws with merges := ⟨r1, c1, r2, c2⟩ :: ws.merges }

/-- A fresh empty worksheet. -/
def emptySheet : Worksheet :=
  { name := "Sheet1", cells := [], merges := [] }

/-- Claim C3: within bounds (and absent the orthogonal merge/numeric
failure conditions) a write succeeds and reading the coordinate back
yields exactly the written value; outside bounds the write fails with
`InvalidCoordinate`. -/
theorem write_read_roundtrip (ws : Worksheet) (r c : Nat) (v : CellValue) (fmt : Option Nat)
    (hv : numericOk v = true) (hm : ws.coveredNonAnchor r c = false) :
    (r < maxRows ∧ c < maxCols →
      ∃ ws', ws.write r c v fmt = .ok ws' ∧ ws'.read r c = some v) ∧
    (maxRows ≤ r ∨ maxCols ≤ c → ws.write r c v fmt = .error .InvalidCoordinate) := by
  constructor
  · rintro ⟨hr, hc⟩
    have h1 : ¬(maxRows ≤ r ∨ maxCols ≤ c) := by omega
    refine ⟨{ ws with cells := ((r, c), ⟨v, fmt⟩) :: ws.cells }, ?_, ?_⟩
    · simp [Worksheet.write, h1, hm, hv]
    · simp [Worksheet.read, List.find?]
  · intro h
    unfold Worksheet.write
    rw [if_pos h]

/-- Witness for C3: both branches at concrete coordinates. -/
theorem write_read_roundtrip_witness :
    (∃ ws', emptySheet.write 0 0 (.number (.finite 20 0)) none = .ok ws' ∧
      ws'.read 0 0 = some (.number (.finite 20 0))) ∧
    emptySheet.write 1048576 0 (.number (.finite 20 0)) none = .error .InvalidCoordinate :=
  ⟨(write_read_roundtrip emptySheet 0 0 (.number (.finite 20 0)) none (by decide)
      (by decide)).1 ⟨by decide, by decide⟩,
   (write_read_roundtrip emptySheet 1048576 0 (.number (.finite 20 0)) none (by decide)
      (by decide)).2 (by decide)⟩

/-- Claim C5: on a worksheet holding a merged range, writing to a cell
the range covers other than its top-left anchor fails with
`MergedCellConflict`, and merging a range that overlaps an existing
merge fails with `OverlappingMerge`; both operations return an error
carrying no new state, so the worksheet is unchanged. -/
theorem merge_protects (ws : Worksheet) (m : MergeRange) (r c : Nat)
    (hm : m ∈ ws.merges) (hcov : m.covers r c = true) (hanch : m.isAnchor r c = false)
    (hr : r < maxRows) (hc : c < maxCols) (v : CellValue) (fmt : Option Nat)
    (n : MergeRange) (hover : ∃ m' ∈ ws.merges, m'.overlaps n = true)
    (hnb : n.r2 < maxRows ∧ n.c2 < maxCols ∧ n.r1 ≤ n.r2 ∧ n.c1 ≤ n.c2) :
    ws.write r c v fmt = .error .MergedCellConflict ∧
    ws.mergeRange n.r1 n.c1 n.r2 n.c2 fmt = .error .OverlappingMerge := by
  constructor
  · have h1 : ¬(maxRows ≤ r ∨ maxCols ≤ c) := by omega
    have h2 : ws.coveredNonAnchor r c = true := by
      unfold Worksheet.coveredNonAnchor
      rw [List.any_eq_true]
      exact ⟨m, hm, by simp [hcov, hanch]⟩
    unfold Worksheet.write
    rw [if_neg h1, if_pos (by simp [h2])]
  · obtain ⟨hb1, hb2, hb3, hb4⟩ := hnb
    have h1 : ¬(maxRows ≤ n.r2 ∨ maxCols ≤ n.c2 ∨ n.r2 < n.r1 ∨ n.c2 < n.c1) := by omega
    have h2 : (ws.merges.any fun m' => m'.overlaps ⟨n.r1, n.c1, n.r2, n.c2⟩) = true := by
      rw [List.any_eq_true]
      obtain ⟨m', hmem, hov⟩ := hover
      exact ⟨m', hmem, by simpa using hov⟩
    unfold Worksheet.mergeRange
    rw [if_neg h1, if_pos (by simp [h2])]

/-- A worksheet holding the merge of the spec's scenario,
`(2,0)`–`(3,2)`. -/
def mergeSheet : Worksheet :=
  { name := "Sheet1", cells := [], merges := [⟨2, 0, 3, 2⟩] }

/-- Witness for C5 at the spec's scenario: merge `(2,0)`–`(3,2)` in
place, write to `(2,1)`, then attempt the overlapping merge
`(3,1)`–`(4,1)`. -/
theorem merge_protects_witness :
    mergeSheet.write 2 1 (.str "x") none = .error .MergedCellConflict ∧
    mergeSheet.mergeRange 3 1 4 1 none = .error .OverlappingMerge :=
  merge_protects mergeSheet ⟨2, 0, 3, 2⟩ 2 1 (by decide) (by decide) (by decide)
    (by decide) (by decide) (.str "x") none ⟨3, 1, 4, 1⟩
    ⟨⟨2, 0, 3, 2⟩, by decide, by decide⟩ ⟨by decide, by decide, by decide, by decide⟩

/-- Claim C6: within bounds (and off covered merge cells, which fail
earlier for the orthogonal reason of C5) a numeric write succeeds for
every finite value and fails with `InvalidNumericValue` for every
non-finite value. -/
theorem numeric_write_finite (ws : Worksheet) (r c : Nat) (x : F64) (fmt : Option Nat)
    (hr : r < maxRows) (hc : c < maxCols) (hm : ws.coveredNonAnchor r c = false) :
    (x.isFinite = true → ∃ ws', ws.write r c (.number x) fmt = .ok ws') ∧
    (x.isFinite = false → ws.write r c (.number x) fmt = .error .InvalidNumericValue) := by
  have h1 : ¬(maxRows ≤ r ∨ maxCols ≤ c) := by omega
  constructor
  · intro hfin
    refine ⟨{ ws with cells := ((r, c), ⟨.number x, fmt⟩) :: ws.cells }, ?_⟩
    simp [Worksheet.write, h1, hm, numericOk, hfin]
  · intro hfin
    simp [Worksheet.write, h1, hm, numericOk, hfin]

/-- Witness for C6: a finite value and NaN at cell `(0,0)` of a fresh
sheet. -/
theorem numeric_write_finite_witness :
    (∃ ws', emptySheet.write 0 0 (.number (.finite 1 0)) none = .ok ws') ∧
    emptySheet.write 0 0 (.number .nan) none = .error .InvalidNumericValue :=
  ⟨(numeric_write_finite emptySheet 0 0 (.finite 1 0) none (by decide) (by decide)
      (by decide)).1 (by decide),
   (numeric_write_finite emptySheet 0 0 .nan none (by decide) (by decide)
      (by decide)).2 (by decide)⟩

/-- Modelled from the spec: the workbook owns the ordered worksheets,
the format registry, the shared string table and the lifecycle state;
the Open → Closed transition is an explicit flag (§3, §4.4, §9). -/
structure Workbook where
  sheets : List Worksheet
  formats : List Format
  sst : List String
  closed : Bool
deriving DecidableEq, Repr

/-- Modelled from the spec: worksheet names are ≤ 31 characters and
exclude the characters `[ ] : * ? / \` (§3). -/
def validSheetName (name : String) : Bool :=
  decide (name.length ≤ 31) &&
    name.toList.all fun ch => !(("[]:*?/\\").toList.contains ch)

/-- Modelled from the spec: `add_worksheet` (§4.4) — fails with
`WorkbookClosed` after close, `DuplicateSheetName` on a case-insensitive
name collision, `InvalidSheetName` on the character/length rules. -/
def Workbook.addWorksheet (wb : Workbook) (name : String) : Except XlsxErr Workbook :=
  if wb.closed then .error .WorkbookClosed
  else if wb.sheets.any fun s => s.name.toLower == name.toLower then
    .error .DuplicateSheetName
  else if validSheetName name then
    .ok { wb with sheets := wb.sheets ++ [{ name := name, cells := [], merges := [] }] }
  else .error .InvalidSheetName

/-- Cell write routed through the workbook (the worksheet holds no
private registry copies, §4.3); mutation is locked once closed
(§4.4). -/
def Workbook.writeCell (wb : Workbook) (i r c : Nat) (v : CellValue) (fmt : Option Nat) :
    Except XlsxErr Workbook :=
  if wb.closed then .error .WorkbookClosed
  else
    match wb.sheets[i]? with
    | none => .error .InvalidCoordinate
    | some ws =>
      (ws.write r c v fmt).map fun ws' => { wb with sheets := wb.sheets.set i ws' }

/-- Merge routed through the workbook; mutation is locked once closed
(§4.4). -/
def Workbook.mergeCells (wb : Workbook) (i r1 c1 r2 c2 : Nat) (fmt : Option Nat) :
    Except XlsxErr Workbook :=
  if wb.closed then .error .WorkbookClosed
  else
    match wb.sheets[i]? with
    | none => .error .InvalidCoordinate
    | some ws =>
      (ws.mergeRange r1 c1 r2 c2 fmt).map fun ws' => { wb with sheets := wb.sheets.set i ws' }

/-- Modelled from the spec: `close()` (§4.4) — the terminal transition;
a second close fails with `WorkbookClosed`, closing with zero sheets
fails with `EmptyWorkbook`. -/
def Workbook.close (wb : Workbook) : Except XlsxErr Workbook :=
  if wb.closed then .error .WorkbookClosed
  else if wb.sheets.isEmpty then .error .EmptyWorkbook
  else .ok { wb with closed := true }

/-- Claim C4: on an open workbook with at least one sheet the first
`close` succeeds and yields a closed workbook, and on any closed
workbook every further `close` and every mutating operation fails with
`WorkbookClosed` — so no mutation ever succeeds after a successful
close. -/
theorem close_terminal (wb : Workbook) (h1 : wb.closed = false) (h2 : wb.sheets ≠ []) :
    ∃ wb', wb.close = .ok wb' ∧ wb'.closed = true ∧
      ∀ w : Workbook, w.closed = true →
        w.close = .error .WorkbookClosed ∧
        (∀ n, w.addWorksheet n = .error .WorkbookClosed) ∧
        (∀ i r c v fmt, w.writeCell i r c v fmt = .error .WorkbookClosed) ∧
        (∀ i r1 c1 r2 c2 fmt, w.mergeCells i r1 c1 r2 c2 fmt = .error .WorkbookClosed) := by
  refine ⟨{ wb with closed := true }, ?_, rfl, ?_⟩
  · unfold Workbook.close
    rw [if_neg (by simp [h1]), if_neg (by simp [List.isEmpty_iff, h2])]
  · intro w hw
    refine ⟨?_, fun n => ?_, fun i r c v fmt => ?_, fun i r1 c1 r2 c2 fmt => ?_⟩
    · unfold Workbook.close
      rw [if_pos (by simp [hw])]
    · unfold Workbook.addWorksheet
      rw [if_pos (by simp [hw])]
    · unfold Workbook.writeCell
      rw [if_pos (by simp [hw])]
    · unfold Workbook.mergeCells
      rw [if_pos (by simp [hw])]

/-- A fresh open workbook with one sheet. -/
def freshWorkbook : Workbook :=
  { sheets := [emptySheet], formats := [], sst := [], closed := false }

/-- Witness for C4 at a concrete one-sheet workbook. -/
theorem close_terminal_witness :
    ∃ wb', freshWorkbook.close = .ok wb' ∧ wb'.closed = true ∧
      ∀ w : Workbook, w.closed = true →
        w.close = .error .WorkbookClosed ∧
        (∀ n, w.addWorksheet n = .error .WorkbookClosed) ∧
        (∀ i r c v fmt, w.writeCell i r c v fmt = .error .WorkbookClosed) ∧
        (∀ i r1 c1 r2 c2 fmt, w.mergeCells i r1 c1 r2 c2 fmt = .error .WorkbookClosed) :=
  close_terminal freshWorkbook (by rfl) (by decide)

/-- Modelled from the spec: an archive part — a path within the
container plus an immutable generated payload (§3 Archive Part). -/
structure Part where
  path : String
  content : String
deriving DecidableEq, Repr

/-- Modelled from the spec: the generated payload of one worksheet part;
for the packaging claim only its functional dependence on the sheet's
contents matters (§4.5), so the markup is abbreviated. -/
def sheetPartContent (ws : Worksheet) : String :=
  ws.cells.foldl
    (fun acc e => acc ++ "(" ++ toString e.1.1 ++ "," ++ toString e.1.2 ++ ")")
    ("sheet:" ++ ws.name)

/-- Modelled from the spec: the full set of generated parts — the
content-types manifest, relationships, workbook part, one part per
worksheet, styles and shared strings (§4.5, §4.6). -/
def generateParts (wb : Workbook) : List Part :=
  [⟨"[Content_Types].xml", "content-types"⟩,
   ⟨"_rels/.rels", "rels"⟩,
   ⟨"xl/workbook.xml", String.intercalate "," (wb.sheets.map Worksheet.name)⟩] ++
  (wb.sheets.enum.map fun e =>
    ⟨"xl/worksheets/sheet" ++ toString (e.1 + 1) ++ ".xml", sheetPartContent e.2⟩) ++
  [⟨"xl/styles.xml", String.intercalate "," (wb.formats.map fun f => toString f.font)⟩,
   ⟨"xl/sharedStrings.xml", String.intercalate "," wb.sst⟩]

/-- Packaging order relation: parts are placed by ascending path. -/
def partLE (a b : Part) : Prop := a.path ≤ b.path

/-- Strict version of the packaging order, used for uniqueness of the
sorted arrangement. -/
def partLT (a b : Part) : Prop := a.path < b.path

instance : DecidableRel partLE := fun a b => inferInstanceAs (Decidable (a.path ≤ b.path))

instance : IsTotal Part partLE := ⟨fun a b => le_total a.path b.path⟩

instance : IsTrans Part partLE := ⟨fun _ _ _ h1 h2 => le_trans h1 h2⟩

instance : IsAntisymm Part partLT := ⟨fun _ _ h1 h2 => ((lt_asymm h1) h2).elim⟩

/-- Modelled from the spec: the fixed, deterministic packaging order —
the parts sorted by path (§4.6). -/
def sortParts (l : List Part) : List Part := l.insertionSort partLE

/-- The final archive byte stream: each part's path and payload
concatenated in packaging order (the DEFLATE compressor is an external
function of its input, §6, so it preserves byte-identity). -/
def archiveBytes (l : List Part) : String :=
  (sortParts l).foldl (fun acc p => acc ++ p.path ++ "|" ++ p.content) ""

theorem pairwise_lt_of_le_ne (l : List Part)
    (hle : l.Pairwise partLE)
    (hne : l.Pairwise fun a b => a.path ≠ b.path) :
    l.Pairwise partLT := by
  induction l with
  | nil => exact List.Pairwise.nil
  | cons p ps ih =>
    rw [List.pairwise_cons] at hle hne ⊢
    exact ⟨fun q hq => lt_of_le_of_ne (hle.1 q hq) (hne.1 q hq), ih hle.2 hne.2⟩

/-- Claim C7: two runs over identical workbook contents — each run
presenting the same generated parts, in whatever order it assembled
them — produce byte-identical archives under the fixed packaging
order. -/
theorem package_deterministic (wb : Workbook) (ps qs : List Part)
    (hp : ps.Perm (generateParts wb)) (hq : qs.Perm (generateParts wb))
    (hnd : ((generateParts wb).map Part.path).Nodup) :
    archiveBytes ps = archiveBytes qs := by
  have key : ∀ l : List Part, l.Perm (generateParts wb) →
      (sortParts l).Pairwise partLT ∧ (sortParts l).Perm (generateParts wb) := by
    intro l hl
    have hperm : (sortParts l).Perm l := List.perm_insertionSort partLE l
    have hsorted : List.Sorted partLE (sortParts l) := List.sorted_insertionSort partLE l
    have hnd' : ((sortParts l).map Part.path).Nodup := by
      have hmp : ((sortParts l).map Part.path).Perm ((generateParts wb).map Part.path) :=
        (hperm.trans hl).map Part.path
      exact hmp.nodup_iff.mpr hnd
    have hpairne : (sortParts l).Pairwise fun a b => a.path ≠ b.path :=
      List.pairwise_map.mp hnd'
    exact ⟨pairwise_lt_of_le_ne _ hsorted hpairne, hperm.trans hl⟩
  obtain ⟨hs1, hp1⟩ := key ps hp
  obtain ⟨hs2, hp2⟩ := key qs hq
  have hsort : sortParts ps = sortParts qs :=
    List.eq_of_perm_of_sorted (hp1.trans hp2.symm) hs1 hs2
  unfold archiveBytes
  rw [hsort]

/-- Witness for C7: the one-sheet workbook's parts presented in
generation order and in reversed order package identically. -/
theorem package_deterministic_witness :
    archiveBytes (generateParts freshWorkbook) =
      archiveBytes (generateParts freshWorkbook).reverse :=
  package_deterministic freshWorkbook (generateParts freshWorkbook)
    (generateParts freshWorkbook).reverse (List.Perm.refl _) (List.reverse_perm _)
    (by decide)

/-- `CStringHelper` from `src/libxlsxwriter/src/lib.rs`: owns pinned
NUL-terminated copies of the strings handed to the C library.  A Rust
string is embedded as its byte sequence (`List Nat`); each stored entry
is the byte content of one pinned `CString`, terminator included. -/
structure CStringHelper where
  strings : List (List Nat)
deriving DecidableEq, Repr

/-- `CStringHelper::new` (`src/libxlsxwriter/src/lib.rs`). -/
def CStringHelper.new : CStringHelper := ⟨[]⟩

/-- `CString::new` from the Rust standard library as invoked by `add`:
fails exactly when the byte sequence contains a NUL byte; otherwise
yields the bytes with a NUL terminator appended. -/
def cStringNew (s : List Nat) : Except XlsxErr (List Nat) :=
  if 0 ∈ s then .error .NulError else .ok (s ++ [0])

/-- `CStringHelper::add` (`src/libxlsxwriter/src/lib.rs` lines 139-144):
pins a NUL-terminated copy of `s`, keeps it alive in `strings`, and
returns the pointer to it.  A pointer is `none` (null) or an index into
the pinned strings. -/
def CStringHelper.add (h : CStringHelper) (s : List Nat) :
    Except XlsxErr (CStringHelper × Option Nat) :=
  match cStringNew s with
  | .error e => .error e
  | .ok cs => .ok (⟨h.strings ++ [cs]⟩, some h.strings.length)

/-- `CStringHelper::add_opt` (`src/libxlsxwriter/src/lib.rs` lines
146-152): `None` maps to the null pointer, `Some` delegates to `add`. -/
def CStringHelper.add_opt (h : CStringHelper) (s : Option (List Nat)) :
    Except XlsxErr (CStringHelper × Option Nat) :=
  match s with
  | some s => h.add s
  | none => .ok (h, none)

/-- Read the bytes a helper-produced pointer refers to. -/
def CStringHelper.deref (h : CStringHelper) (p : Option Nat) : Option (List Nat) :=
  match p with
  | none => none
  | some i => h.strings[i]?

/-- Claim C8: `add(s)` returns `Ok` with a non-null pointer to a
NUL-terminated copy of `s` exactly when `s` has no interior NUL byte,
and fails otherwise; `add_opt(None)` always returns `Ok` with the null
pointer. -/
theorem cStringHelper_add_spec (h : CStringHelper) (s : List Nat) :
    (0 ∉ s ↔ ∃ h' p, h.add s = .ok (h', p) ∧ p ≠ none ∧ h'.deref p = some (s ++ [0])) ∧
    (0 ∈ s → h.add s = .error .NulError) ∧
    h.add_opt none = .ok (h, none) := by
  refine ⟨⟨?_, ?_⟩, ?_, rfl⟩
  · intro hnul
    refine ⟨⟨h.strings ++ [s ++ [0]]⟩, some h.strings.length, ?_, by simp, ?_⟩
    · simp [CStringHelper.add, cStringNew, hnul]
    · simp [CStringHelper.deref]
  · rintro ⟨h', p, hok, -, -⟩ hnul
    simp [CStringHelper.add, cStringNew, hnul] at hok
  · intro hnul
    simp [CStringHelper.add, cStringNew, hnul]

/-- Witness for C8 at a one-byte string and at the string that is a
single NUL byte. -/
theorem cStringHelper_add_spec_witness :
    (0 ∉ ([65] : List Nat) ↔
      ∃ h' p, CStringHelper.new.add [65] = .ok (h', p) ∧ p ≠ none ∧
        h'.deref p = some ([65] ++ [0])) ∧
    CStringHelper.new.add [0] = .error .NulError :=
  ⟨(cStringHelper_add_spec CStringHelper.new [65]).1,
   (cStringHelper_add_spec CStringHelper.new [0]).2.1 (by decide)⟩

/-- `try_to_vec` (`src/libxlsxwriter/src/lib.rs` lines 155-164):
collects an iterator of results into a vector, returning on the first
error without touching later items.  The iterator is embedded as the
list of items it would yield. -/
def try_to_vec {T : Type} : List (Except XlsxErr T) → Except XlsxErr (List T)
  | [] => .ok []
  | .error e :: _ => .error e
  | .ok v :: rest =>
    match try_to_vec rest with
    | .ok vs => .ok (v :: vs)
    | .error e => .error e

theorem try_to_vec_map_ok {T : Type} (vs : List T) :
    try_to_vec (vs.map Except.ok) = .ok vs := by
  induction vs with
  | nil => rfl
  | cons v vs ih => simp [try_to_vec, ih]

theorem try_to_vec_first_error {T : Type} (pre : List T) (e : XlsxErr)
    (post : List (Except XlsxErr T)) :
    try_to_vec (pre.map Except.ok ++ .error e :: post) = .error e := by
  induction pre with
  | nil => rfl
  | cons v vs ih => simp [try_to_vec, ih]

/-- Claim C9: when every item is `Ok`, `try_to_vec` returns `Ok` of all
success values in iteration order; otherwise it returns the first
`Err`, and the result does not depend on any item after that error. -/
theorem try_to_vec_spec {T : Type} (l : List (Except XlsxErr T)) :
    (∀ vs : List T, l = vs.map Except.ok → try_to_vec l = .ok vs) ∧
    (∀ (pre : List T) (e : XlsxErr) (post : List (Except XlsxErr T)),
      l = pre.map Except.ok ++ .error e :: post → try_to_vec l = .error e) := by
  constructor
  · rintro vs rfl
    exact try_to_vec_map_ok vs
  · rintro pre e post rfl
    exact try_to_vec_first_error pre e post

/-- Witness for C9: an all-success list and a list with an error in the
middle. -/
theorem try_to_vec_spec_witness :
    try_to_vec [Except.ok 1, Except.ok (2 : Nat)] = .ok [1, 2] ∧
    try_to_vec [Except.ok 1, Except.error XlsxErr.IoFailure, Except.ok (2 : Nat)] =
      .error .IoFailure :=
  ⟨(try_to_vec_spec [Except.ok 1, Except.ok 2]).1 [1, 2] rfl,
   (try_to_vec_spec [Except.ok 1, Except.error XlsxErr.IoFailure, Except.ok 2]).2
     [1] .IoFailure [Except.ok 2] rfl⟩

/-- `StringOrFloat` (`src/libxlsxwriter/src/lib.rs` lines 166-221): a
string value or an `f64` number value. -/
inductive StringOrFloat where
  | string (s : String)
  | float (f : Float)
deriving Repr

/-- The `Default` impl (`src/libxlsxwriter/src/lib.rs` lines 173-177):
`Float(0.)`. -/
def StringOrFloat.default : StringOrFloat := .float 0.0

/-- `StringOrFloat::to_string` (consuming, lines 181-186). -/
def StringOrFloat.to_string : StringOrFloat → Option String
  | .string x => some x
  | .float _ => none

/-- `StringOrFloat::to_str` (borrowing, lines 189-194); the borrowed
`&str` is embedded as the string itself. -/
def StringOrFloat.to_str : StringOrFloat → Option String
  | .string x => some x
  | .float _ => none

/-- `StringOrFloat::to_f64` (lines 197-203). -/
def StringOrFloat.to_f64 : StringOrFloat → Option Float
  | .string _ => none
  | .float x => some x

/-- `From<String> for StringOrFloat` (lines 211-215); `From<&str>`
(lines 205-209) produces the same variant. -/
def StringOrFloat.fromString (s : String) : StringOrFloat := .string s

/-- `From<f64> for StringOrFloat` (lines 217-221). -/
def StringOrFloat.fromF64 (f : Float) : StringOrFloat := .float f

/-- Claim C10: exactly one of `to_str` and `to_f64` returns `Some`;
converting from an `f64` then applying `to_f64` returns the original
number; converting from a string then applying `to_string` returns the
original string; and the default value is `Float(0.0)`. -/
theorem stringOrFloat_spec :
    (∀ v : StringOrFloat, v.to_str.isSome = !v.to_f64.isSome) ∧
    (∀ f : Float, (StringOrFloat.fromF64 f).to_f64 = some f) ∧
    (∀ s : String, (StringOrFloat.fromString s).to_string = some s) ∧
    StringOrFloat.default = .float 0.0 := by
  refine ⟨fun v => ?_, fun f => rfl, fun s => rfl, rfl⟩
  cases v <;> rfl

end XlsxSpec
